import Mathlib

/-!
Verification of the `jitir.py` code generator (metajit).

The generator consumes a declarative instruction catalogue and projects it
into C++ text fragments: an LLVM-side function table (`LLVMAPIPlugin`), a
replay dispatcher (`BuildBuildInstPlugin`), a symbol registrar
(`MapSymbolsInstPlugin`), an arena allocator expression
(`AllocatorBuilderPlugin`) and per-instruction constructors
(`InstTrailingConstructorPlugin`).  The data-model containers (`Inst`,
`Arg`, `Type`, `ValueType`, `IR`) and the formatting helpers
(`format_name`, `format_builder_name`, `format_formal_args`) come from the
external `lwir` library, which is not part of this repository's sources;
those are modelled from the spec, as marked in their doc comments.
-/

/-- A type token of the instruction specification: either the
value-reference classification (`ValueType()` in the source) or a scalar
type named by a string (`Type("...")` in the source). -/
inductive JType where
  | value : JType
  | scalar : String → JType
deriving DecidableEq, Repr

/-- Predicate `arg.type.is_value()`: the discriminator between value-reference
arguments and scalar arguments. -/
def JType.is_value : JType → Bool
  | .value => true
  | .scalar _ => false

/-- One formal argument of an instruction (`Arg` in the source).
Modelled from the spec: `Arg` lives in the external `lwir` library; per the
catalogue's usage (`Arg("a")` for operands referring to other
instructions' results) the type classification defaults to
value-reference, and `getter=Getter.Always` is recorded as a boolean
policy flag. -/
structure Arg where
  name : String
  type : JType := JType.value
  getterAlways : Bool := false
deriving DecidableEq, Repr

/-- One instruction variant (`Inst` in the source).  Modelled from the
spec: `Inst` lives in the external `lwir` library, exposing a unique name,
the ordered argument list, the result-type expression, the ordered
validity predicates (`type_checks`) and an optional base-class override. -/
structure Inst where
  name : String
  args : List Arg
  type : String
  type_checks : List String
  base : Option String := none
deriving DecidableEq, Repr

/-- The instruction catalogue (`IR` in the source).  Modelled from the
spec: an ordered sequence of instructions plus the catalogue-wide default
base class used when an instruction declares no override. -/
structure IR where
  insts : List Inst
  inst_base : String := "Inst"
deriving DecidableEq, Repr

/-- Modelled from the spec: `lwir`'s `Inst.format_name` is not under the
repository sources; the spec gives each instruction a unique name used as
the concrete C++ variant class name, so the model returns the
instruction's name. -/
def format_name (inst : Inst) : String := inst.name

/-- Auxiliary for `snake_case`: rewrite every upper-case letter as an
underscore followed by its lower-case form. -/
def snakeCaseAux : List Char → List Char
  | [] => []
  | c :: rest =>
    if c.isUpper then '_' :: c.toLower :: snakeCaseAux rest
    else c :: snakeCaseAux rest

/-- Lower-case a leading capital and underscore-separate the remaining
word boundaries (`AddPtrConst` becomes `add_ptr_const`). -/
def snakeCase (s : String) : String :=
  match s.toList with
  | [] => ""
  | c :: rest => String.mk (c.toLower :: snakeCaseAux rest)

/-- Modelled from the spec: `lwir`'s `Inst.format_builder_name` is not
under the repository sources; the spec's concrete scenario names the
builder symbol of instruction `Add` as `build_add`, i.e. `build_`
followed by the snake-cased instruction name. -/
def format_builder_name (inst : Inst) : String :=
  "build_" ++ snakeCase inst.name

/-- Modelled from the spec: the formal C++ type of a constructor
parameter — value-reference arguments are passed as `Value*` handles,
scalar arguments carry their own native type. -/
def formal_arg_type : JType → String
  | .value => "Value*"
  | .scalar s => s

/-- Modelled from the spec: `lwir`'s `Inst.format_formal_args` is not
under the repository sources; the constructor takes one formal parameter
per declared argument, in declaration order. -/
def format_formal_args (inst : Inst) : List String :=
  inst.args.map fun a => formal_arg_type a.type ++ " " ++ a.name

/-- A type-substitution table: the Python source passes a `dict` mapping
type tokens to concrete low-level type strings; modelled as an
association list queried only through `tableLookup`. -/
def tableLookup (t : List (JType × String)) (k : JType) : Option String :=
  match t with
  | [] => none
  | (k', v) :: rest => if k = k' then some v else tableLookup rest k

/-- Helper `binop` of `jitir.py`: a two-operand instruction whose result type is
the type of its first operand; the default extra check is
`is_int(a->type())`. -/
def binop (name : String) (type_checks : Option (List String) := none) : Inst :=
  let tc := type_checks.getD ["is_int(a->type())"]
  { name := name
    args := [{ name := "a" }, { name := "b" }]
    type := "a->type()"
    type_checks := "a->type() == b->type()" :: tc }

/-- Helper `cmp` of `jitir.py` (renamed: Lean already defines `cmp`): a
two-operand comparison producing `Type::Bool`. -/
def cmpInst (name : String) (type_checks : List String) : Inst :=
  { name := name
    args := [{ name := "a" }, { name := "b" }]
    type := "Type::Bool"
    type_checks := "a->type() == b->type()" :: type_checks }

/-- The concrete `jitir` instruction catalogue of `jitir.py`. -/
def jitir : IR :=
  { insts := [
      { name := "Const"
        args := [{ name := "type", type := JType.scalar "Type" },
                 { name := "value", type := JType.scalar "uint64_t" }]
        type := "type"
        type_checks := [] },
      { name := "Freeze"
        args := [{ name := "a" }]
        type := "a->type()"
        type_checks := [] },
      { name := "Input"
        args := [{ name := "id", type := JType.scalar "size_t" },
                 { name := "type", type := JType.scalar "Type" },
                 { name := "flags", type := JType.scalar "InputFlags" }]
        type := "type"
        type_checks := [] },
      { name := "Output"
        args := [{ name := "value" },
                 { name := "id", type := JType.scalar "size_t" }]
        type := "Type::Void"
        type_checks := [] },
      { name := "Select"
        args := [{ name := "cond", getterAlways := true },
                 { name := "a" }, { name := "b" }]
        type := "a->type()"
        type_checks := ["cond->type() == Type::Bool",
                        "a->type() == b->type()"] },
      { name := "ResizeU"
        args := [{ name := "a" },
                 { name := "type", type := JType.scalar "Type" }]
        type := "type"
        type_checks := ["is_int_or_bool(a->type())",
                        "is_int_or_bool(type)"] },
      { name := "Load"
        args := [{ name := "ptr", getterAlways := true },
                 { name := "type", type := JType.scalar "Type" },
                 { name := "flags", type := JType.scalar "LoadFlags" },
                 { name := "aliasing", type := JType.scalar "AliasingGroup" },
                 { name := "offset", type := JType.scalar "uint64_t" }]
        type := "type"
        type_checks := ["ptr->type() == Type::Ptr"] },
      { name := "Store"
        args := [{ name := "ptr", getterAlways := true },
                 { name := "value", getterAlways := true },
                 { name := "aliasing", type := JType.scalar "AliasingGroup" },
                 { name := "offset", type := JType.scalar "uint64_t" }]
        type := "Type::Void"
        type_checks := ["ptr->type() == Type::Ptr"] },
      { name := "AddPtr"
        args := [{ name := "ptr", getterAlways := true },
                 { name := "offset", getterAlways := true }]
        type := "Type::Ptr"
        type_checks := ["ptr->type() == Type::Ptr",
                        "offset->type() == Type::Int64"] },
      { name := "AddPtrConst"
        args := [{ name := "ptr", getterAlways := true },
                 { name := "offset", type := JType.scalar "uint64_t" }]
        type := "Type::Ptr"
        type_checks := ["ptr->type() == Type::Ptr"] },
      binop "Add",
      binop "Sub",
      binop "Mul",
      binop "ModS",
      binop "ModU",
      binop "And" (some ["is_int_or_bool(a->type())"]),
      binop "Or" (some ["is_int_or_bool(a->type())"]),
      binop "Xor" (some ["is_int_or_bool(a->type())"]),
      binop "ShrU",
      binop "ShrS",
      binop "Shl",
      cmpInst "Eq" [],
      cmpInst "LtU" ["is_int(a->type())"],
      cmpInst "LtS" ["is_int(a->type())"],
      { name := "Branch"
        args := [{ name := "cond", getterAlways := true },
                 { name := "true_block", type := JType.scalar "Block*" },
                 { name := "false_block", type := JType.scalar "Block*" }]
        type := "Type::Void"
        type_checks := ["cond->type() == Type::Bool"] },
      { name := "Jump"
        args := [{ name := "block", type := JType.scalar "Block*" }]
        type := "Type::Void"
        type_checks := [] },
      { name := "Exit"
        args := []
        type := "Type::Void"
        type_checks := [] }
    ] }

/-- The `type_substitutions` dictionary handed to `CAPIPlugin` in the
first `lwir` invocation (the foreign-call projection). -/
def capi_type_substitutions : List (JType × String) :=
  [(JType.scalar "size_t", "uint64_t"),
   (JType.scalar "uint64_t", "uint64_t"),
   (JType.scalar "Type", "uint32_t"),
   (JType.scalar "LoadFlags", "uint32_t"),
   (JType.scalar "InputFlags", "uint32_t"),
   (JType.scalar "Block*", "void*"),
   (JType.scalar "AliasingGroup", "uint32_t"),
   (JType.value, "void*")]

/-- Table `llvm_type_substitutions` of `jitir.py`: the backend (LLVM)
type-substitution table. -/
def llvm_type_substitutions : List (JType × String) :=
  [(JType.scalar "size_t", "llvm::Type::getInt64Ty(context)"),
   (JType.scalar "uint64_t", "llvm::Type::getInt64Ty(context)"),
   (JType.scalar "Type", "llvm::Type::getInt32Ty(context)"),
   (JType.scalar "LoadFlags", "llvm::Type::getInt32Ty(context)"),
   (JType.scalar "InputFlags", "llvm::Type::getInt32Ty(context)"),
   (JType.scalar "Block*", "llvm::PointerType::get(context, 0)"),
   (JType.scalar "AliasingGroup", "llvm::Type::getInt32Ty(context)"),
   (JType.value, "llvm::PointerType::get(context, 0)")]

/-- Plugin `LLVMAPIPlugin` of `jitir.py` (lines 17-45).  The `prefix` field is
spelled `pfx` here. -/
structure LLVMAPIPlugin where
  pfx : String
  type_substitutions : List (JType × String)

/-- The member declaration emitted for one instruction in the `defs`
loop of `LLVMAPIPlugin.run` (line 25). -/
def LLVMAPIPlugin.defEntry (inst : Inst) : String :=
  "  llvm::FunctionCallee " ++ format_builder_name inst ++ ";\n"

/-- The getOrInsertFunction symbol string for one instruction, exactly
as interpolated on line 34 of `jitir.py`: the configured prefix, an
underscore, the instruction's builder symbol name. -/
def LLVMAPIPlugin.symbolOf (p : LLVMAPIPlugin) (inst : Inst) : String :=
  p.pfx ++ "_" ++ format_builder_name inst

/-- The `arg_types` list built for one instruction in
`LLVMAPIPlugin.run` (lines 29-31): a leading opaque pointer for the
builder handle, then one entry per declared argument, each looked up in
the backend type-substitution table.  A missing key is a generation
failure (`KeyError`), hence `Option`. -/
def LLVMAPIPlugin.argTypes (p : LLVMAPIPlugin) (inst : Inst) : Option (List String) :=
  (inst.args.mapM fun arg => tableLookup p.type_substitutions arg.type).map
    fun ts => "llvm::PointerType::get(context, 0)" :: ts

/-- One `inits` block of `LLVMAPIPlugin.run` (lines 33-40). -/
def LLVMAPIPlugin.initEntry (p : LLVMAPIPlugin) (inst : Inst) : Option String :=
  (p.argTypes inst).map fun arg_types =>
    "    " ++ format_builder_name inst ++ " = module->getOrInsertFunction(\n" ++
    "      \"" ++ p.symbolOf inst ++ "\",\n" ++
    "      llvm::FunctionType::get(\n" ++
    "        llvm::PointerType::get(context, 0),\n" ++
    "        std::vector<llvm::Type*>(\x7b " ++ String.intercalate ", " arg_types ++ " \x7d),\n" ++
    "        false\n" ++
    "      )\n" ++
    "    );\n"

/-- Method `LLVMAPIPlugin.run` (lines 22-45): the fragment map with the member
declarations and the `getOrInsertFunction` initialisations, one per
catalogue instruction, in catalogue order. -/
def LLVMAPIPlugin.run (p : LLVMAPIPlugin) (ir : IR) : Option (List (String × String)) :=
  (ir.insts.mapM p.initEntry).map fun entries =>
    [("llvmapi_defs", String.join (ir.insts.map LLVMAPIPlugin.defEntry)),
     ("llvmapi_inits", String.join entries)]

/-- The sequence of symbol names declared by `LLVMAPIPlugin.run`: the
first argument of each `getOrInsertFunction` call, in catalogue order
(line 34 of `jitir.py`). -/
def LLVMAPIPlugin.symbols (p : LLVMAPIPlugin) (ir : IR) : List String :=
  ir.insts.map p.symbolOf

/-- Plugin `BuildBuildInstPlugin` of `jitir.py` (lines 47-71). -/
structure BuildBuildInstPlugin where
  type_substitutions : List (JType × String)

/-- The `args.push_back(llvm::ConstantInt::get(...))` lines emitted for
the scalar (non-value) arguments of one instruction, in declaration
order (lines 62-64 of `jitir.py`); `none` when a scalar argument's type
token is missing from the backend table. -/
def buildCaseScalarLines (ts : List (JType × String)) : List Arg → Option String
  | [] => some ""
  | a :: rest =>
    if a.type.is_value then buildCaseScalarLines ts rest
    else
      match tableLookup ts a.type with
      | none => none
      | some ty =>
        (buildCaseScalarLines ts rest).map fun s =>
          "    args.push_back(llvm::ConstantInt::get(" ++ ty ++
          ", (uint64_t)i->" ++ a.name ++ "(), false));\n" ++ s

/-- One `dynamic_cast` branch of the generated dispatcher (lines 59-67
of `jitir.py`). -/
def buildCase (ts : List (JType × String)) (inst : Inst) : Option String :=
  (buildCaseScalarLines ts inst.args).map fun scalarLines =>
    let name := format_name inst
    "  if (" ++ name ++ "* i = dynamic_cast<" ++ name ++ "*>(inst)) \x7b\n" ++
    "    args.insert(args.begin(), jitir_builder);\n" ++
    scalarLines ++
    "    assert(args.size() == " ++ toString (inst.args.length + 1) ++ ");\n" ++
    "    return builder.CreateCall(api." ++ format_builder_name inst ++ ", args);\n" ++
    "  \x7d\n"

/-- Method `BuildBuildInstPlugin.run` (lines 51-71): the full text of the
generated `build_build_inst` dispatcher. -/
def BuildBuildInstPlugin.run (p : BuildBuildInstPlugin) (ir : IR) : Option (List (String × String)) :=
  (ir.insts.mapM (buildCase p.type_substitutions)).map fun cases =>
    [("build_build_inst",
      "inline llvm::Value* build_build_inst(llvm::IRBuilder<>& builder,\n" ++
      "                                    LLVM_API& api,\n" ++
      "                                    Inst* inst,\n" ++
      "                                    llvm::Value* jitir_builder,\n" ++
      "                                    std::vector<llvm::Value*> args) \x7b\n" ++
      "  llvm::LLVMContext& context = builder.GetInsertBlock()->getModule()->getContext();\n" ++
      String.join cases ++
      "  assert(false && \"Unknown instruction\");\n" ++
      "  return nullptr;\n" ++
      "\x7d\n")]

/-- Plugin `MapSymbolsInstPlugin` of `jitir.py` (lines 73-82).  The `prefix`
field is spelled `pfx` here. -/
structure MapSymbolsInstPlugin where
  pfx : String

/-- The symbol name interpolated for one instruction on line 80 of
`jitir.py`. -/
def MapSymbolsInstPlugin.symbolOf (p : MapSymbolsInstPlugin) (inst : Inst) : String :=
  p.pfx ++ "_" ++ format_builder_name inst

/-- Method `MapSymbolsInstPlugin.run` (lines 77-82): one `map_symbol`
registration statement per catalogue instruction. -/
def MapSymbolsInstPlugin.run (p : MapSymbolsInstPlugin) (ir : IR) : List (String × String) :=
  [("map_symbols",
    String.join (ir.insts.map fun inst =>
      "map_symbol(" ++ p.symbolOf inst ++ ");\n"))]

/-- The sequence of symbol names emitted by `MapSymbolsInstPlugin.run`,
in catalogue order. -/
def MapSymbolsInstPlugin.symbols (p : MapSymbolsInstPlugin) (ir : IR) : List String :=
  ir.insts.map p.symbolOf

/-- The `arg_count` loop of `AllocatorBuilderPlugin.allocator`
(lines 90-93 of `jitir.py`): count the value-classified arguments. -/
def allocatorArgCount (inst : Inst) : Nat :=
  inst.args.foldl (fun n a => if a.type.is_value then n + 1 else n) 0

/-- Method `AllocatorBuilderPlugin.allocator` (lines 88-95): the arena
allocation expression emitted for one instruction. -/
def AllocatorBuilderPlugin.allocator (inst : Inst) (_ : IR) : String :=
  let name := format_name inst
  let size := "sizeof(" ++ name ++ ") + sizeof(Value*) * " ++ toString (allocatorArgCount inst)
  "(" ++ name ++ "*) _section->allocator().alloc(" ++ size ++ ", alignof(" ++ name ++ "))"

/-- The single loop of `InstTrailingConstructorPlugin.run`
(lines 102-113 of `jitir.py`), processed argument by argument: returns
the chain of `.with(index, name)` calls for the value arguments (indices
counted from the accumulator), the final value-argument count, and the
`_name(name)` member initialisers for the scalar arguments, all in
declaration order. -/
def ctorArgInit : List Arg → Nat → String × Nat × List String
  | [], n => ("", n, [])
  | a :: rest, n =>
    match a.type with
    | JType.value =>
      let r := ctorArgInit rest (n + 1)
      (".with(" ++ toString n ++ ", " ++ a.name ++ ")" ++ r.1, r.2.1, r.2.2)
    | JType.scalar _ =>
      let r := ctorArgInit rest n
      (r.1, r.2.1, ("_" ++ a.name ++ "(" ++ a.name ++ ")") :: r.2.2)

/-- Method `InstTrailingConstructorPlugin.run` (lines 98-127): the generated
constructor for one instruction — the member-initialiser list sets the
base representation (result-type expression plus trailing span), binds
value arguments by index, stores scalar arguments into their fields, and
the body holds one `assert` per validity predicate. -/
def InstTrailingConstructorPlugin.run (inst : Inst) (ir : IR) : String :=
  let name := format_name inst
  let base := inst.base.getD ir.inst_base
  let r := ctorArgInit inst.args 0
  let arg_init := "Span<Value*>::trailing(this, " ++ toString r.2.1 ++ ")" ++ r.1
  let init_list := (base ++ "(" ++ inst.type ++ ", " ++ arg_init ++ ")") :: r.2.2
  "  " ++ name ++ "(" ++ String.intercalate ", " (format_formal_args inst) ++ "): " ++
    String.intercalate ", " init_list ++ " \x7b\n" ++
  String.join (inst.type_checks.map fun check => "    assert(" ++ check ++ ");\n") ++
  "  \x7d\n" ++
  "\n"

/-- The fragment map produced by the plugin list of the second `lwir`
invocation of `jitir.py` (lines 312-328): `LLVMAPIPlugin`,
`BuildBuildInstPlugin` and `MapSymbolsInstPlugin` each run once over the
catalogue and their named fragments are concatenated. -/
def llvmapiPipeline (pfx : String) (ts : List (JType × String)) (ir : IR) :
    Option (List (String × String)) :=
  match LLVMAPIPlugin.run ⟨pfx, ts⟩ ir, BuildBuildInstPlugin.run ⟨ts⟩ ir with
  | some a, some b => some (a ++ b ++ MapSymbolsInstPlugin.run ⟨pfx⟩ ir)
  | _, _ => none

/-! Semantic model of the C++ dispatcher emitted by
`BuildBuildInstPlugin.run` (lines 51-71 of `jitir.py`).  A backend
operand is either a value handle already produced by the backend (an
`llvm::Value*` pulled from the caller-supplied `args` vector) or a
constant built by `llvm::ConstantInt::get` from a backend type string
and the numeric representation of a stored scalar field. -/

/-- A backend operand of the generated dispatcher's call. -/
inductive Operand where
  | handle : Nat → Operand
  | constInt : String → Nat → Operand
deriving DecidableEq, Repr

/-- A generic recorded instruction as the generated dispatcher sees it:
its concrete runtime variant (the class name the `dynamic_cast` tests
against) and the numeric values of its stored scalar fields, read back
through the generated `i->field()` getters. -/
structure GenericInst where
  tag : String
  fields : List (String × Nat)
deriving DecidableEq, Repr

/-- Field access `i->name()` on a generic instruction instance. -/
def GenericInst.field (g : GenericInst) (n : String) : Nat :=
  (g.fields.lookup n).getD 0

/-- The constant operands the dispatcher pushes for the scalar
(non-value) arguments of an instruction, in declaration order — the
semantic counterpart of lines 62-64 of `jitir.py`.  `none` models the
generator failing on a missing substitution-table key (no stub is
generated in that case). -/
def scalarOperands (ts : List (JType × String)) (g : GenericInst) :
    List Arg → Option (List Operand)
  | [] => some []
  | a :: rest =>
    if a.type.is_value then scalarOperands ts g rest
    else
      match tableLookup ts a.type with
      | none => none
      | some ty =>
        (scalarOperands ts g rest).map fun ops =>
          Operand.constInt ty (g.field a.name) :: ops

/-- Semantic model of the generated `build_build_inst` function
(lines 52-70 of `jitir.py`): test the generic instruction against each
catalogue variant in declaration order (`dynamic_cast` success is
modelled as equality of the runtime tag with the variant's class name —
the variants are disjoint runtime types); on the first match prepend the
trace-builder handle to the caller-supplied value handles, append one
constant per scalar argument, check the generated
`assert(args.size() == N + 1)`, and return the issued call's target
builder symbol together with its operand list.  Falling off the end is
the fatal `assert(false && "Unknown instruction")` path: no call is
issued and `none` is returned. -/
def build_build_inst (ts : List (JType × String)) (insts : List Inst)
    (g : GenericInst) (jitir_builder : Operand) (args : List Operand) :
    Option (String × List Operand) :=
  match insts with
  | [] => none
  | inst :: rest =>
    if g.tag = format_name inst then
      match scalarOperands ts g inst.args with
      | none => none
      | some scalars =>
        let opnds := jitir_builder :: args ++ scalars
        if opnds.length = inst.args.length + 1 then
          some (format_builder_name inst, opnds)
        else
          none
    else
      build_build_inst ts rest g jitir_builder args

/-- Spec-side definition ("one operand per declared Argument in
declaration order"): walk the declared arguments in order, consuming the
next caller-supplied handle for each value-reference argument and
building a backend constant for each scalar argument.  `none` when the
handles run out or a substitution-table key is missing. -/
def declOrderOperands (ts : List (JType × String)) (g : GenericInst) :
    List Arg → List Operand → Option (List Operand)
  | [], _ => some []
  | a :: rest, hs =>
    if a.type.is_value then
      match hs with
      | [] => none
      | h :: hs' => (declOrderOperands ts g rest hs').map fun ops => h :: ops
    else
      match tableLookup ts a.type with
      | none => none
      | some ty =>
        (declOrderOperands ts g rest hs).map fun ops =>
          Operand.constInt ty (g.field a.name) :: ops

/-- The number of value-classified arguments in a declaration list. -/
def countValue (args : List Arg) : Nat :=
  args.countP fun a => a.type.is_value

/-- Catalogue invariant behind the dispatcher's operand order: once a
scalar argument appears in the declaration list, every later argument is
also scalar — equivalently, every value-reference argument precedes
every scalar argument. -/
def valuesPrecedeScalars : List Arg → Bool
  | [] => true
  | a :: rest =>
    if a.type.is_value then valuesPrecedeScalars rest
    else rest.all fun b => !b.type.is_value

/-- Spec-side allocation size expression: the fixed header
(`sizeof` of the instruction's representation) plus one arena-pointer
slot per argument classified value-reference. -/
def allocSizeSpec (inst : Inst) : String :=
  "sizeof(" ++ format_name inst ++ ") + sizeof(Value*) * " ++
    toString (inst.args.filter fun a => a.type.is_value).length

/-- The portion of the generated constructor preceding the assertion
block: signature and member-initialiser list (where every field is
set). -/
def ctorHead (inst : Inst) (ir : IR) : String :=
  let name := format_name inst
  let base := inst.base.getD ir.inst_base
  let r := ctorArgInit inst.args 0
  let arg_init := "Span<Value*>::trailing(this, " ++ toString r.2.1 ++ ")" ++ r.1
  let init_list := (base ++ "(" ++ inst.type ++ ", " ++ arg_init ++ ")") :: r.2.2
  "  " ++ name ++ "(" ++ String.intercalate ", " (format_formal_args inst) ++ "): " ++
    String.intercalate ", " init_list ++ " \x7b\n"

/-! Helper lemmas. -/

theorem stringJoin_cons (s : String) (l : List String) :
    String.join (s :: l) = s ++ String.join l := by
  apply String.ext
  simp [String.join_eq, String.data_append]

theorem allocatorArgCount_foldl (args : List Arg) (n : Nat) :
    args.foldl (fun n a => if a.type.is_value then n + 1 else n) n =
      n + countValue args := by
  induction args generalizing n with
  | nil => simp [countValue]
  | cons a rest ih =>
    simp only [List.foldl_cons, countValue, List.countP_cons]
    cases hv : a.type.is_value with
    | true => rw [ih]; simp [countValue, hv]; omega
    | false => rw [ih]; simp [countValue, hv]

theorem allocatorArgCount_eq (inst : Inst) :
    allocatorArgCount inst = (inst.args.filter fun a => a.type.is_value).length := by
  unfold allocatorArgCount
  rw [allocatorArgCount_foldl]
  simp [countValue, List.countP_eq_length_filter]

theorem ctorArgInit_spec (args : List Arg) (k : Nat) :
    ctorArgInit args k =
      (String.join (List.zipWith
          (fun i a => ".with(" ++ toString i ++ ", " ++ a.name ++ ")")
          (List.range' k (countValue args)) (args.filter fun a => a.type.is_value)),
       k + countValue args,
       (args.filter fun a => !a.type.is_value).map fun a =>
         "_" ++ a.name ++ "(" ++ a.name ++ ")") := by
  induction args generalizing k with
  | nil =>
    simp only [ctorArgInit, countValue, List.countP_nil, List.filter_nil,
      List.range', List.zipWith_nil_right, List.map_nil, Nat.add_zero]
    rfl
  | cons a rest ih =>
    cases hty : a.type with
    | value =>
      have hv : a.type.is_value = true := by rw [hty]; rfl
      have hcount : countValue (a :: rest) = countValue rest + 1 := by
        simp [countValue, List.countP_cons, hv]
      simp [ctorArgInit, hty, ih (k + 1), hcount, JType.is_value,
        List.filter_cons, hv, List.range'_succ, stringJoin_cons]
      try omega
    | scalar s =>
      have hv : a.type.is_value = false := by rw [hty]; rfl
      have hcount : countValue (a :: rest) = countValue rest := by
        simp [countValue, List.countP_cons, hv]
      simp [ctorArgInit, hty, ih k, hcount, JType.is_value, List.filter_cons, hv]

theorem scalarOperands_length (ts : List (JType × String)) (g : GenericInst) :
    ∀ (args : List Arg) (sc : List Operand),
      scalarOperands ts g args = some sc →
      countValue args + sc.length = args.length := by
  intro args
  induction args with
  | nil =>
    intro sc h
    simp [scalarOperands] at h
    simp [countValue, ← h]
  | cons a rest ih =>
    intro sc h
    cases hv : a.type.is_value with
    | true =>
      simp only [scalarOperands, hv, if_pos] at h
      have := ih sc h
      simp [countValue, List.countP_cons, hv] at this ⊢
      omega
    | false =>
      simp only [scalarOperands, hv, Bool.false_eq_true, if_neg,
        not_false_eq_true] at h
      cases hl : tableLookup ts a.type with
      | none => rw [hl] at h; simp at h
      | some ty =>
        rw [hl] at h
        rcases Option.map_eq_some'.mp h with ⟨sc', hsc', rfl⟩
        have := ih sc' hsc'
        simp [countValue, List.countP_cons, hv] at this ⊢
        omega

theorem scalarOperands_isSome (ts : List (JType × String)) (g : GenericInst) :
    ∀ (args : List Arg),
      (∀ a ∈ args, a.type.is_value = false → (tableLookup ts a.type).isSome) →
      ∃ sc, scalarOperands ts g args = some sc := by
  intro args
  induction args with
  | nil => intro _; exact ⟨[], rfl⟩
  | cons a rest ih =>
    intro h
    obtain ⟨sc, hsc⟩ := ih fun b hb => h b (List.mem_cons_of_mem a hb)
    cases hv : a.type.is_value with
    | true => exact ⟨sc, by simp only [scalarOperands, hv, if_pos]; exact hsc⟩
    | false =>
      have := h a (List.mem_cons_self a rest) hv
      cases hl : tableLookup ts a.type with
      | none => rw [hl] at this; simp at this
      | some ty =>
        refine ⟨Operand.constInt ty (g.field a.name) :: sc, ?_⟩
        simp only [scalarOperands, hv, Bool.false_eq_true, if_neg,
          not_false_eq_true, hl, hsc, Option.map_some']

theorem declOrderOperands_all_scalar (ts : List (JType × String)) (g : GenericInst) :
    ∀ (args : List Arg),
      (∀ a ∈ args, a.type.is_value = false) →
      declOrderOperands ts g args [] = scalarOperands ts g args := by
  intro args
  induction args with
  | nil => intro _; rfl
  | cons a rest ih =>
    intro h
    have hv := h a (List.mem_cons_self a rest)
    have hrest := ih fun b hb => h b (List.mem_cons_of_mem a hb)
    cases hl : tableLookup ts a.type with
    | none =>
      simp only [declOrderOperands, scalarOperands, hv, Bool.false_eq_true,
        if_neg, not_false_eq_true, hl]
    | some ty =>
      simp only [declOrderOperands, scalarOperands, hv, Bool.false_eq_true,
        if_neg, not_false_eq_true, hl, hrest]

theorem declOrderOperands_eq_append (ts : List (JType × String)) (g : GenericInst) :
    ∀ (args : List Arg) (hs : List Operand),
      valuesPrecedeScalars args = true → hs.length = countValue args →
      declOrderOperands ts g args hs =
        (scalarOperands ts g args).map fun sc => hs ++ sc := by
  intro args
  induction args with
  | nil =>
    intro hs _ hlen
    have : hs = [] := by
      apply List.length_eq_zero.mp
      simpa [countValue] using hlen
    subst this
    rfl
  | cons a rest ih =>
    intro hs hvps hlen
    cases hv : a.type.is_value with
    | true =>
      have hvps' : valuesPrecedeScalars rest = true := by
        simp only [valuesPrecedeScalars, hv, if_pos] at hvps
        exact hvps
      have hlen' : hs.length = countValue rest + 1 := by
        rw [hlen]; simp [countValue, List.countP_cons, hv]
      cases hs with
      | nil => simp at hlen'
      | cons h0 hs' =>
        have hlen'' : hs'.length = countValue rest := by
          simpa using hlen'
        simp only [declOrderOperands, scalarOperands, hv, if_pos,
          ih hs' hvps' hlen'']
        cases scalarOperands ts g rest <;> simp
    | false =>
      have hall : ∀ b ∈ rest, b.type.is_value = false := by
        simp only [valuesPrecedeScalars, hv, Bool.false_eq_true, if_neg,
          not_false_eq_true, List.all_eq_true] at hvps
        intro b hb
        have := hvps b hb
        simpa using this
      have hzero : countValue rest = 0 := by
        simp only [countValue, List.countP_eq_zero]
        intro b hb
        simp [hall b hb]
      have hcnt : countValue (a :: rest) = countValue rest := by
        simp [countValue, List.countP_cons, hv]
      have hnil : hs = [] := List.length_eq_zero.mp (by rw [hlen, hcnt, hzero])
      subst hnil
      cases hl : tableLookup ts a.type with
      | none =>
        simp only [declOrderOperands, scalarOperands, hv, Bool.false_eq_true,
          if_neg, not_false_eq_true, hl, Option.map_none']
      | some ty =>
        simp only [declOrderOperands, scalarOperands, hv, Bool.false_eq_true,
          if_neg, not_false_eq_true, hl, declOrderOperands_all_scalar ts g rest hall]
        cases scalarOperands ts g rest <;> simp

theorem build_build_inst_hit (ts : List (JType × String)) (K : Inst)
    (g : GenericInst) (b : Operand) (hs sc : List Operand) :
    ∀ (insts : List Inst), K ∈ insts → (insts.map format_name).Nodup →
      g.tag = format_name K →
      scalarOperands ts g K.args = some sc →
      (b :: hs ++ sc).length = K.args.length + 1 →
      build_build_inst ts insts g b hs =
        some (format_builder_name K, b :: hs ++ sc) := by
  intro insts
  induction insts with
  | nil => intro h; simp at h
  | cons inst rest ih =>
    intro hmem hnodup htag hsc hlen
    rcases List.mem_cons.mp hmem with rfl | hmem'
    · simp only [build_build_inst, htag, if_pos, hsc]
      rw [if_pos]
      exact hlen
    · have hne : g.tag ≠ format_name inst := by
        intro heq
        have h1 : format_name K ∈ rest.map format_name :=
          List.mem_map_of_mem format_name hmem'
        have h2 : format_name inst ∉ rest.map format_name :=
          (List.nodup_cons.mp (by simpa using hnodup)).1
        rw [htag] at heq
        exact h2 (heq ▸ h1)
      simp only [build_build_inst, hne, if_neg, not_false_eq_true]
      exact ih hmem' (List.Nodup.of_cons (by simpa using hnodup)) htag hsc hlen

theorem build_build_inst_miss (ts : List (JType × String)) (g : GenericInst)
    (b : Operand) (hs : List Operand) :
    ∀ (insts : List Inst), (∀ K ∈ insts, g.tag ≠ format_name K) →
      build_build_inst ts insts g b hs = none := by
  intro insts
  induction insts with
  | nil => intro _; rfl
  | cons inst rest ih =>
    intro h
    have hne := h inst (List.mem_cons_self inst rest)
    simp only [build_build_inst, hne, if_neg, not_false_eq_true]
    exact ih fun K hK => h K (List.mem_cons_of_mem inst hK)

theorem build_build_inst_some_mem (ts : List (JType × String)) (g : GenericInst)
    (b : Operand) (hs : List Operand) (r : String × List Operand) :
    ∀ (insts : List Inst), build_build_inst ts insts g b hs = some r →
      ∃ K ∈ insts, g.tag = format_name K := by
  intro insts
  induction insts with
  | nil => intro h; simp [build_build_inst] at h
  | cons inst rest ih =>
    intro h
    by_cases htag : g.tag = format_name inst
    · exact ⟨inst, List.mem_cons_self inst rest, htag⟩
    · simp only [build_build_inst, htag, if_neg, not_false_eq_true] at h
      obtain ⟨K, hK, htagK⟩ := ih h
      exact ⟨K, List.mem_cons_of_mem inst hK, htagK⟩

theorem mapM_option_congr {α β : Type} (f f' : α → Option β) :
    ∀ (l : List α), (∀ a ∈ l, f a = f' a) → l.mapM f = l.mapM f' := by
  intro l
  induction l with
  | nil => intro _; rfl
  | cons a rest ih =>
    intro h
    rw [List.mapM_cons, List.mapM_cons, h a (List.mem_cons_self a rest),
      ih fun b hb => h b (List.mem_cons_of_mem a hb)]

theorem buildCaseScalarLines_ext (t1 t2 : List (JType × String))
    (h : ∀ τ, tableLookup t1 τ = tableLookup t2 τ) :
    ∀ (args : List Arg), buildCaseScalarLines t1 args = buildCaseScalarLines t2 args := by
  intro args
  induction args with
  | nil => rfl
  | cons a rest ih =>
    simp only [buildCaseScalarLines, h a.type, ih]

theorem buildCase_ext (t1 t2 : List (JType × String))
    (h : ∀ τ, tableLookup t1 τ = tableLookup t2 τ) (inst : Inst) :
    buildCase t1 inst = buildCase t2 inst := by
  unfold buildCase
  rw [buildCaseScalarLines_ext t1 t2 h]

theorem argTypes_ext (pfx : String) (t1 t2 : List (JType × String))
    (h : ∀ τ, tableLookup t1 τ = tableLookup t2 τ) (inst : Inst) :
    LLVMAPIPlugin.argTypes ⟨pfx, t1⟩ inst = LLVMAPIPlugin.argTypes ⟨pfx, t2⟩ inst := by
  unfold LLVMAPIPlugin.argTypes
  rw [mapM_option_congr _ _ inst.args fun a _ => h a.type]

theorem initEntry_ext (pfx : String) (t1 t2 : List (JType × String))
    (h : ∀ τ, tableLookup t1 τ = tableLookup t2 τ) (inst : Inst) :
    LLVMAPIPlugin.initEntry ⟨pfx, t1⟩ inst = LLVMAPIPlugin.initEntry ⟨pfx, t2⟩ inst := by
  unfold LLVMAPIPlugin.initEntry
  rw [argTypes_ext pfx t1 t2 h]
  rfl

/-! Claim theorems. -/

/-- C1: for every instruction K of the jitir catalogue, the generated
dispatcher — which tests the generic instruction pointer against the
concrete variants in strict catalogue declaration order with a checked
downcast, first match winning — produces on a tag-K instance exactly one
backend call whose operand list has length 1 + (number of declared
arguments of K) and consists of the trace-builder handle followed by one
operand per declared argument in declaration order: value-reference
arguments are the caller-supplied backend result handles, scalar
arguments are backend constants built from the backend type-substitution
table and the stored field's numeric value. -/
theorem jitir_dispatch_decl_order :
    ∀ K ∈ jitir.insts, ∀ (g : GenericInst) (b : Operand) (hs : List Operand),
      g.tag = format_name K → hs.length = countValue K.args →
      ∃ ops, declOrderOperands llvm_type_substitutions g K.args hs = some ops ∧
        ops.length = K.args.length ∧
        build_build_inst llvm_type_substitutions jitir.insts g b hs =
          some (format_builder_name K, b :: ops) := by
  intro K hK g b hs htag hlen
  have hlk : ∀ a ∈ K.args, a.type.is_value = false →
      (tableLookup llvm_type_substitutions a.type).isSome := by
    have hall : ∀ I ∈ jitir.insts, ∀ a ∈ I.args, a.type.is_value = false →
        (tableLookup llvm_type_substitutions a.type).isSome := by decide
    exact hall K hK
  have hvps : valuesPrecedeScalars K.args = true := by
    have hall : ∀ I ∈ jitir.insts, valuesPrecedeScalars I.args = true := by decide
    exact hall K hK
  have hnodup : (jitir.insts.map format_name).Nodup := by decide
  obtain ⟨sc, hsc⟩ := scalarOperands_isSome llvm_type_substitutions g K.args hlk
  have hslen := scalarOperands_length llvm_type_substitutions g K.args sc hsc
  refine ⟨hs ++ sc, ?_, ?_, ?_⟩
  · rw [declOrderOperands_eq_append llvm_type_substitutions g K.args hs hvps hlen, hsc]
    rfl
  · simp only [List.length_append]
    omega
  · apply build_build_inst_hit llvm_type_substitutions K g b hs sc jitir.insts hK
      hnodup htag hsc
    simp only [List.length_cons, List.length_append]
    omega

/-- Witness for C1: the dispatcher on an `Output` instance with stored
field `id = 5` and one caller-supplied value handle. -/
theorem jitir_dispatch_decl_order_witness :
    ∃ ops, declOrderOperands llvm_type_substitutions ⟨"Output", [("id", 5)]⟩
        (Inst.mk "Output" [Arg.mk "value" JType.value false,
          Arg.mk "id" (JType.scalar "size_t") false] "Type::Void" [] none).args
        [Operand.handle 1] = some ops ∧
      ops.length = (Inst.mk "Output" [Arg.mk "value" JType.value false,
          Arg.mk "id" (JType.scalar "size_t") false] "Type::Void" [] none).args.length ∧
      build_build_inst llvm_type_substitutions jitir.insts ⟨"Output", [("id", 5)]⟩
          (Operand.handle 0) [Operand.handle 1] =
        some (format_builder_name (Inst.mk "Output" [Arg.mk "value" JType.value false,
            Arg.mk "id" (JType.scalar "size_t") false] "Type::Void" [] none),
          Operand.handle 0 :: ops) :=
  jitir_dispatch_decl_order
    (Inst.mk "Output" [Arg.mk "value" JType.value false,
      Arg.mk "id" (JType.scalar "size_t") false] "Type::Void" [] none)
    (by decide) ⟨"Output", [("id", 5)]⟩ (Operand.handle 0) [Operand.handle 1]
    (by decide) (by decide)

/-- C2: for every instruction, the allocator generator's allocation size
is the fixed header (`sizeof` of the instruction's representation) plus
one arena-pointer-sized slot (`sizeof(Value*)`) per argument classified
value-reference; only value-reference arguments contribute slots. -/
theorem allocator_size_formula :
    ∀ (inst : Inst) (ir : IR),
      AllocatorBuilderPlugin.allocator inst ir =
        "(" ++ format_name inst ++ "*) _section->allocator().alloc(" ++
          allocSizeSpec inst ++ ", alignof(" ++ format_name inst ++ "))" ∧
      allocatorArgCount inst = (inst.args.filter fun a => a.type.is_value).length := by
  intro inst ir
  refine ⟨?_, allocatorArgCount_eq inst⟩
  unfold AllocatorBuilderPlugin.allocator allocSizeSpec
  rw [allocatorArgCount_eq]

/-- C3: for every catalogue and common prefix, the symbol-name sequence
of the backend function-table generator (the first argument of each
`getOrInsertFunction` call in `LLVMAPIPlugin.run`) equals, element for
element, the sequence registered by `MapSymbolsInstPlugin.run`: same
spelling, same count (one per instruction), each formed as prefix,
underscore, builder symbol name. -/
theorem bridge_registrar_symbols_agree :
    ∀ (pfx : String) (ts : List (JType × String)) (ir : IR),
      LLVMAPIPlugin.symbols ⟨pfx, ts⟩ ir = MapSymbolsInstPlugin.symbols ⟨pfx⟩ ir ∧
      (LLVMAPIPlugin.symbols ⟨pfx, ts⟩ ir).length = ir.insts.length ∧
      (∀ inst ∈ ir.insts, LLVMAPIPlugin.symbolOf ⟨pfx, ts⟩ inst =
        pfx ++ "_" ++ format_builder_name inst) ∧
      MapSymbolsInstPlugin.run ⟨pfx⟩ ir =
        [("map_symbols", String.join ((MapSymbolsInstPlugin.symbols ⟨pfx⟩ ir).map
          fun n => "map_symbol(" ++ n ++ ");\n"))] := by
  intro pfx ts ir
  refine ⟨rfl, by simp [LLVMAPIPlugin.symbols], fun inst _ => rfl, ?_⟩
  simp [MapSymbolsInstPlugin.run, MapSymbolsInstPlugin.symbols, List.map_map]
  rfl

/-- Witness for C3: the concrete jitir catalogue with the configured
prefix `jitir` and the backend table. -/
theorem bridge_registrar_symbols_agree_witness :
    LLVMAPIPlugin.symbols ⟨"jitir", llvm_type_substitutions⟩ jitir =
      MapSymbolsInstPlugin.symbols ⟨"jitir"⟩ jitir :=
  (bridge_registrar_symbols_agree "jitir" llvm_type_substitutions jitir).1

/-- C4: the generated constructor body is the header and initialiser
list (where all fields are set) followed by exactly one `assert` per
declared validity predicate, in predicate declaration order, and
contains no assertion block when the predicate list is empty. -/
theorem ctor_assert_per_predicate :
    ∀ (inst : Inst) (ir : IR),
      InstTrailingConstructorPlugin.run inst ir =
        ctorHead inst ir ++
        (String.join (inst.type_checks.map fun check =>
          "    assert(" ++ check ++ ");\n") ++
        ("  \x7d\n" ++ "\n")) ∧
      (inst.type_checks = [] →
        InstTrailingConstructorPlugin.run inst ir =
          ctorHead inst ir ++ ("  \x7d\n" ++ "\n")) := by
  intro inst ir
  have h1 : InstTrailingConstructorPlugin.run inst ir =
      ctorHead inst ir ++
      (String.join (inst.type_checks.map fun check =>
        "    assert(" ++ check ++ ");\n") ++
      ("  \x7d\n" ++ "\n")) := by
    simp only [InstTrailingConstructorPlugin.run, ctorHead, String.append_assoc]
  refine ⟨h1, fun hempty => ?_⟩
  rw [h1, hempty]
  simp [String.join]

/-- Witness for C4: the `Exit` instruction has an empty predicate list
and its generated constructor is header plus closing braces only. -/
theorem ctor_assert_per_predicate_witness :
    InstTrailingConstructorPlugin.run (Inst.mk "Exit" [] "Type::Void" [] none) jitir =
      ctorHead (Inst.mk "Exit" [] "Type::Void" [] none) jitir ++ ("  \x7d\n" ++ "\n") :=
  (ctor_assert_per_predicate (Inst.mk "Exit" [] "Type::Void" [] none) jitir).2 rfl

/-- C5: the generated constructor initialises the base representation
with the instruction's declared result-type expression and a trailing
span whose length is the count of value-reference arguments (the same
rule the allocator uses), binds each value-reference argument into its
trailing slot by consecutive index in declaration order, and stores each
scalar argument into its own dedicated `_name` field in declaration
order. -/
theorem ctor_layout_decl_order :
    ∀ (inst : Inst) (ir : IR),
      InstTrailingConstructorPlugin.run inst ir =
        "  " ++ format_name inst ++ "(" ++
          String.intercalate ", " (format_formal_args inst) ++ "): " ++
          String.intercalate ", "
            ((inst.base.getD ir.inst_base ++ "(" ++ inst.type ++ ", " ++
              ("Span<Value*>::trailing(this, " ++ toString (countValue inst.args) ++ ")" ++
               String.join (List.zipWith
                 (fun i a => ".with(" ++ toString i ++ ", " ++ a.name ++ ")")
                 (List.range (inst.args.filter fun a => a.type.is_value).length)
                 (inst.args.filter fun a => a.type.is_value))) ++ ")") ::
             ((inst.args.filter fun a => !a.type.is_value).map fun a =>
               "_" ++ a.name ++ "(" ++ a.name ++ ")")) ++ " \x7b\n" ++
        String.join (inst.type_checks.map fun check =>
          "    assert(" ++ check ++ ");\n") ++
        "  \x7d\n" ++ "\n" ∧
      countValue inst.args = allocatorArgCount inst := by
  intro inst ir
  constructor
  · have hcv : countValue inst.args =
        (inst.args.filter fun a => a.type.is_value).length := by
      simp [countValue, List.countP_eq_length_filter]
    simp only [InstTrailingConstructorPlugin.run, ctorArgInit_spec, Nat.zero_add,
      List.range_eq_range', hcv]
  · rw [allocatorArgCount_eq]
    simp [countValue, List.countP_eq_length_filter]

/-- C6: the backend function table has one callable slot per catalogue
instruction in catalogue order, bound to the same symbol name the
registrar emits, and each slot's function type takes a leading opaque
pointer (the builder handle) followed by one parameter per declared
argument obtained from the backend type-substitution table, in which the
value-reference token maps to the opaque pointer type. -/
theorem llvmapi_function_table_shape :
    (∀ inst ∈ jitir.insts,
      LLVMAPIPlugin.argTypes ⟨"jitir", llvm_type_substitutions⟩ inst =
        some ("llvm::PointerType::get(context, 0)" ::
          inst.args.map fun a => (tableLookup llvm_type_substitutions a.type).getD "") ∧
      ∀ a ∈ inst.args, (tableLookup llvm_type_substitutions a.type).isSome) ∧
    tableLookup llvm_type_substitutions JType.value =
      some "llvm::PointerType::get(context, 0)" ∧
    LLVMAPIPlugin.symbols ⟨"jitir", llvm_type_substitutions⟩ jitir =
      MapSymbolsInstPlugin.symbols ⟨"jitir"⟩ jitir ∧
    (jitir.insts.mapM (LLVMAPIPlugin.initEntry ⟨"jitir", llvm_type_substitutions⟩)).map
        List.length = some jitir.insts.length ∧
    (LLVMAPIPlugin.run ⟨"jitir", llvm_type_substitutions⟩ jitir).map List.length =
      some 2 :=
  ⟨by decide, rfl, rfl, by decide, by decide⟩

/-- Witness for C6: the signature row of the `Const` instruction. -/
theorem llvmapi_function_table_shape_witness :
    LLVMAPIPlugin.argTypes ⟨"jitir", llvm_type_substitutions⟩
        (Inst.mk "Const" [Arg.mk "type" (JType.scalar "Type") false,
          Arg.mk "value" (JType.scalar "uint64_t") false] "type" [] none) =
      some ("llvm::PointerType::get(context, 0)" ::
        (Inst.mk "Const" [Arg.mk "type" (JType.scalar "Type") false,
          Arg.mk "value" (JType.scalar "uint64_t") false] "type" [] none).args.map
            fun a => (tableLookup llvm_type_substitutions a.type).getD "") :=
  (llvmapi_function_table_shape.1
    (Inst.mk "Const" [Arg.mk "type" (JType.scalar "Type") false,
      Arg.mk "value" (JType.scalar "uint64_t") false] "type" [] none)
    (by decide)).1

/-- C7: a generic instruction pointer matching none of the declared
catalogue variants drives the generated dispatcher into the fatal
"unknown instruction" assertion with no backend call issued, and every
returned call result is guarded by a successful variant match. -/
theorem dispatch_unknown_instruction :
    (∀ (g : GenericInst) (b : Operand) (hs : List Operand),
      g.tag ∉ jitir.insts.map format_name →
      build_build_inst llvm_type_substitutions jitir.insts g b hs = none) ∧
    (∀ (ts : List (JType × String)) (g : GenericInst) (b : Operand)
        (hs : List Operand) (r : String × List Operand),
      build_build_inst ts jitir.insts g b hs = some r →
      ∃ K ∈ jitir.insts, g.tag = format_name K) := by
  constructor
  · intro g b hs hmem
    apply build_build_inst_miss
    intro K hK heq
    exact hmem (heq ▸ List.mem_map_of_mem format_name hK)
  · intro ts g b hs r h
    exact build_build_inst_some_mem ts g b hs r jitir.insts h

/-- Witness for C7: a generic instruction tagged `Phi`, which is not a
catalogue variant, yields no backend call. -/
theorem dispatch_unknown_instruction_witness :
    build_build_inst llvm_type_substitutions jitir.insts ⟨"Phi", []⟩
      (Operand.handle 0) [] = none :=
  dispatch_unknown_instruction.1 ⟨"Phi", []⟩ (Operand.handle 0) [] (by decide)

/-- C8: generation is deterministic — each generator's fragment output is
a pure function of the catalogue, the type-substitution tables and the
configured prefix; in particular it depends on the substitution dict
(the only non-ordered container consulted) solely through key lookup, so
two tables with identical lookup behaviour but different entry order
produce byte-identical fragment text, and the full second-pipeline
output is likewise unchanged. -/
theorem generation_deterministic :
    ∀ (pfx : String) (t1 t2 : List (JType × String)) (ir : IR),
      (∀ τ, tableLookup t1 τ = tableLookup t2 τ) →
      LLVMAPIPlugin.run ⟨pfx, t1⟩ ir = LLVMAPIPlugin.run ⟨pfx, t2⟩ ir ∧
      BuildBuildInstPlugin.run ⟨t1⟩ ir = BuildBuildInstPlugin.run ⟨t2⟩ ir ∧
      llvmapiPipeline pfx t1 ir = llvmapiPipeline pfx t2 ir := by
  intro pfx t1 t2 ir h
  have h1 : LLVMAPIPlugin.run ⟨pfx, t1⟩ ir = LLVMAPIPlugin.run ⟨pfx, t2⟩ ir := by
    unfold LLVMAPIPlugin.run
    rw [mapM_option_congr _ _ ir.insts fun inst _ => initEntry_ext pfx t1 t2 h inst]
  have h2 : BuildBuildInstPlugin.run ⟨t1⟩ ir = BuildBuildInstPlugin.run ⟨t2⟩ ir := by
    unfold BuildBuildInstPlugin.run
    rw [mapM_option_congr _ _ ir.insts fun inst _ => buildCase_ext t1 t2 h inst]
  refine ⟨h1, h2, ?_⟩
  unfold llvmapiPipeline
  rw [h1, h2]

/-- Witness for C8: swapping the first two entries of the backend table
(two distinct keys) leaves every lookup, and hence the generated
dispatcher text, unchanged. -/
theorem generation_deterministic_witness :
    BuildBuildInstPlugin.run ⟨llvm_type_substitutions⟩ jitir =
      BuildBuildInstPlugin.run
        ⟨[(JType.scalar "uint64_t", "llvm::Type::getInt64Ty(context)"),
          (JType.scalar "size_t", "llvm::Type::getInt64Ty(context)"),
          (JType.scalar "Type", "llvm::Type::getInt32Ty(context)"),
          (JType.scalar "LoadFlags", "llvm::Type::getInt32Ty(context)"),
          (JType.scalar "InputFlags", "llvm::Type::getInt32Ty(context)"),
          (JType.scalar "Block*", "llvm::PointerType::get(context, 0)"),
          (JType.scalar "AliasingGroup", "llvm::Type::getInt32Ty(context)"),
          (JType.value, "llvm::PointerType::get(context, 0)")]⟩ jitir := by
  apply (generation_deterministic "jitir" llvm_type_substitutions _ jitir ?_).2.1
  intro τ
  rcases τ with _ | s
  · rfl
  · by_cases h1 : s = "size_t"
    · subst h1; rfl
    · by_cases h2 : s = "uint64_t"
      · subst h2; rfl
      · simp [llvm_type_substitutions, tableLookup, h1, h2]

/-- C9: every type token reachable from the arguments of the concrete
jitir catalogue resolves in both consulted type-substitution tables (the
foreign-call table configured for `CAPIPlugin` and the backend table
used by `LLVMAPIPlugin` and `BuildBuildInstPlugin`), and consequently
generation of both backend fragments succeeds with no missing-key
failure. -/
theorem substitution_tables_complete :
    (∀ inst ∈ jitir.insts, ∀ arg ∈ inst.args,
      (tableLookup capi_type_substitutions arg.type).isSome ∧
      (tableLookup llvm_type_substitutions arg.type).isSome) ∧
    (LLVMAPIPlugin.run ⟨"jitir", llvm_type_substitutions⟩ jitir).isSome ∧
    (BuildBuildInstPlugin.run ⟨llvm_type_substitutions⟩ jitir).isSome :=
  ⟨by decide, by decide, by decide⟩

/-- Witness for C9: the `AliasingGroup` token of the `Store`
instruction's `aliasing` argument resolves in both tables. -/
theorem substitution_tables_complete_witness :
    (tableLookup capi_type_substitutions (JType.scalar "AliasingGroup")).isSome ∧
    (tableLookup llvm_type_substitutions (JType.scalar "AliasingGroup")).isSome :=
  substitution_tables_complete.1
    (Inst.mk "Store" [Arg.mk "ptr" JType.value true, Arg.mk "value" JType.value true,
      Arg.mk "aliasing" (JType.scalar "AliasingGroup") false,
      Arg.mk "offset" (JType.scalar "uint64_t") false] "Type::Void"
      ["ptr->type() == Type::Ptr"] none)
    (by decide)
    (Arg.mk "aliasing" (JType.scalar "AliasingGroup") false) (by decide)

/-- C10: in every instruction of the concrete jitir catalogue every
value-reference argument precedes every scalar argument in declaration
order, and under exactly this invariant the dispatcher's construction —
caller-supplied value handles first, converted scalar constants appended
after — coincides with the operand list in declaration order. -/
theorem value_args_precede_scalars :
    (∀ inst ∈ jitir.insts, valuesPrecedeScalars inst.args = true) ∧
    (∀ (ts : List (JType × String)) (g : GenericInst) (args : List Arg)
        (hs : List Operand),
      valuesPrecedeScalars args = true → hs.length = countValue args →
      declOrderOperands ts g args hs =
        (scalarOperands ts g args).map fun sc => hs ++ sc) :=
  ⟨by decide, fun ts g args hs h1 h2 => declOrderOperands_eq_append ts g args hs h1 h2⟩

/-- Witness for C10: the `Store` instruction satisfies the invariant. -/
theorem value_args_precede_scalars_witness :
    valuesPrecedeScalars (Inst.mk "Store" [Arg.mk "ptr" JType.value true,
      Arg.mk "value" JType.value true,
      Arg.mk "aliasing" (JType.scalar "AliasingGroup") false,
      Arg.mk "offset" (JType.scalar "uint64_t") false] "Type::Void"
      ["ptr->type() == Type::Ptr"] none).args = true :=
  value_args_precede_scalars.1 _ (by decide)
